import Mathlib

/-!
Shallow embedding of `src/src/scbe-envelope.ts` (SCBE Envelope System v2.0).

Modelling conventions:
* JS `number` fields are modelled as `ℚ` (exact rational semantics of the
  arithmetic the code performs); fields the code always floors to integers
  (`ts`, `threat_level`, `harmonic`, `waypoint`, `step_no`, `n_iter`) are `ℤ`.
* JS `Map` objects are modelled as functions `String → Option _` with
  pointwise update.
* `Date.now()` is ambient state: functions reading it take an explicit
  `now : ℤ` argument (the code uses `Math.floor(Date.now() / 1000)`).
* `sha256Hex ∘ JSON.stringify` applied to the key-sorted object produced by
  `canonicalize` is abstracted as a parameter `hash : Canon → String`, where
  `Canon` is the sorted key/value list that `canonicalize` builds before
  stringifying.  Collision-resistance of SHA-256 is expressed as an
  injectivity hypothesis where a theorem needs it.
* TypeScript code paths that throw at runtime (`x!.field` on `undefined`)
  are modelled with `Except String`; the human-readable error/exception
  message texts are elided (`VerificationResult.error` strings are not part
  of any claim, only `valid` and `reason` are modelled).
-/

namespace SCBE

/-- A primitive JSON value occurring in a canonicalized envelope section. -/
inductive JVal where
  | s (v : String)
  | q (v : ℚ)
  | z (v : ℤ)
deriving DecidableEq

/-- The key-sorted field list `canonicalize` produces before `JSON.stringify`. -/
abbrev Canon := List (String × JVal)

/-- Abstracts `sha256Hex (JSON.stringify sortedObj)` from the source. -/
abbrev Hash := Canon → String

/-- `interface Context` -/
structure Context where
  ts : ℤ
  device_id : String
  threat_level : ℤ
  entropy : ℚ
  server_load : ℚ
  stability : ℚ
deriving DecidableEq

/-- `interface Intent` -/
structure Intent where
  primary : String
  modifier : String
  harmonic : ℤ
  phase_deg : ℚ
deriving DecidableEq

/-- `interface Trajectory` -/
structure Trajectory where
  epoch : ℚ
  period_s : ℚ
  slot_id : String
  waypoint : ℤ
deriving DecidableEq

/-- `interface AAD` -/
structure AAD where
  route_hint : String
  run_id : String
  step_no : ℤ
deriving DecidableEq

/-- `interface Commit` -/
structure Commit where
  ctx_sha256 : String
  intent_sha256 : String
  traj_sha256 : String
  aad_sha256 : String
deriving DecidableEq

/-- The nested `h` chaos-parameter block of `interface CryptoParams`. -/
structure HParams where
  d : ℚ
  R : ℚ
  H : ℚ
  n_iter : ℤ
deriving DecidableEq

/-- `interface CryptoParams` -/
structure CryptoParams where
  kem : String
  sig : String
  h : HParams
  salt_q_b64 : String
  cipher_b64 : String
deriving DecidableEq

/-- `interface Signatures` -/
structure Signatures where
  orchestrator_sig_b64 : Option String
  provider_sig_b64 : Option String
deriving DecidableEq

/-- `class SCBEEnvelope`: fields are optional (TypeScript `?:`). -/
structure SCBEEnvelope where
  ver : String
  ctx : Option Context
  intent : Option Intent
  trajectory : Option Trajectory
  aad : Option AAD
  commit : Option Commit
  crypto : Option CryptoParams
  sig : Option Signatures
deriving DecidableEq

/-- `interface SCBEEnvelopeData` as it exists at runtime: the non-null
assertions in `toObject` are casts only, so any field may hold `undefined`. -/
structure SCBEEnvelopeData where
  ver : String
  ctx : Option Context
  intent : Option Intent
  trajectory : Option Trajectory
  aad : Option AAD
  commit : Option Commit
  crypto : Option CryptoParams
  sig : Option Signatures
deriving DecidableEq

/-- `SCBEEnvelope.clamp(value, min, max)` (call sites use min = 0, max = 1). -/
def clamp (value mn mx : ℚ) : ℚ := max mn (min mx value)

/-- Truncation toward zero, as JS `%` and `Math.trunc` use. -/
def ratTrunc (q : ℚ) : ℤ := if 0 ≤ q then ⌊q⌋ else ⌈q⌉

/-- The JS `%` operator on (finite, nonzero-divisor) numbers:
`a % b = a - b * trunc (a / b)`; the result keeps the dividend's sign. -/
def jsRem (a b : ℚ) : ℚ := a - b * (ratTrunc (a / b) : ℚ)

/-- `SCBEEnvelope.createContext` (the ambient `Date.now()/1000` floor is the
explicit `now` argument). -/
def createContext (now : ℤ) (deviceId : String)
    (threatLevel entropy serverLoad stability : ℚ) : Context :=
  { ts := now
    device_id := deviceId
    threat_level := max 1 (min 5 ⌊threatLevel⌋)
    entropy := clamp entropy 0 1
    server_load := clamp serverLoad 0 1
    stability := clamp stability 0 1 }

/-- `SCBEEnvelope.createIntent`: `phase_deg: phaseDeg % 360` (JS remainder). -/
def createIntent (primary modifier : String) (harmonic phaseDeg : ℚ) : Intent :=
  { primary := primary
    modifier := modifier
    harmonic := max 1 (min 7 ⌊harmonic⌋)
    phase_deg := jsRem phaseDeg 360 }

/-- `SCBEEnvelope.createTrajectory` (no validation in the source). -/
def createTrajectory (epoch periodS : ℚ) (slotId : String) (waypoint : ℤ) :
    Trajectory :=
  { epoch := epoch, period_s := periodS, slot_id := slotId, waypoint := waypoint }

/-- `SCBEEnvelope.createAAD` (no validation in the source). -/
def createAAD (routeHint runId : String) (stepNo : ℤ) : AAD :=
  { route_hint := routeHint, run_id := runId, step_no := stepNo }

/-- `canonicalize(ctx)`: keys sorted alphabetically
(`device_id < entropy < server_load < stability < threat_level < ts`). -/
def canonicalizeCtx (c : Context) : Canon :=
  [("device_id", .s c.device_id), ("entropy", .q c.entropy),
   ("server_load", .q c.server_load), ("stability", .q c.stability),
   ("threat_level", .z c.threat_level), ("ts", .z c.ts)]

/-- `canonicalize(intent)`: `harmonic < modifier < phase_deg < primary`. -/
def canonicalizeIntent (i : Intent) : Canon :=
  [("harmonic", .z i.harmonic), ("modifier", .s i.modifier),
   ("phase_deg", .q i.phase_deg), ("primary", .s i.primary)]

/-- `canonicalize(trajectory)`: `epoch < period_s < slot_id < waypoint`. -/
def canonicalizeTraj (t : Trajectory) : Canon :=
  [("epoch", .q t.epoch), ("period_s", .q t.period_s),
   ("slot_id", .s t.slot_id), ("waypoint", .z t.waypoint)]

/-- `canonicalize(aad)`: `route_hint < run_id < step_no`. -/
def canonicalizeAAD (a : AAD) : Canon :=
  [("route_hint", .s a.route_hint), ("run_id", .s a.run_id),
   ("step_no", .z a.step_no)]

/-- Body of `computeCommits` once all four sections are known present. -/
def computeCommitsOf (hash : Hash) (c : Context) (i : Intent) (t : Trajectory)
    (a : AAD) : Commit :=
  { ctx_sha256 := hash (canonicalizeCtx c)
    intent_sha256 := hash (canonicalizeIntent i)
    traj_sha256 := hash (canonicalizeTraj t)
    aad_sha256 := hash (canonicalizeAAD a) }

/-- `SCBEEnvelope.computeCommits()`: throws unless ctx, intent, trajectory
and aad are all set. -/
def computeCommits (hash : Hash) (e : SCBEEnvelope) : Except String Commit :=
  match e.ctx, e.intent, e.trajectory, e.aad with
  | some c, some i, some t, some a => .ok (computeCommitsOf hash c i t a)
  | _, _, _, _ => .error "All envelope components must be set before computing commits"

/-- The four field-by-field hash comparisons of `verifyCommits`. -/
def verifyCommitsOf (hash : Hash) (c : Context) (i : Intent) (t : Trajectory)
    (a : AAD) (cm : Commit) : Bool :=
  let expected := computeCommitsOf hash c i t a
  decide (expected.ctx_sha256 = cm.ctx_sha256 ∧
    expected.intent_sha256 = cm.intent_sha256 ∧
    expected.traj_sha256 = cm.traj_sha256 ∧
    expected.aad_sha256 = cm.aad_sha256)

/-- `SCBEEnvelope.verifyCommits()`: `false` when no commit is stored, else
recomputes (which throws when a section is missing) and compares. -/
def verifyCommits (hash : Hash) (e : SCBEEnvelope) : Except String Bool :=
  match e.commit with
  | none => .ok false
  | some cm =>
    match e.ctx, e.intent, e.trajectory, e.aad with
    | some c, some i, some t, some a => .ok (verifyCommitsOf hash c i t a cm)
    | _, _, _, _ => .error "All envelope components must be set before computing commits"

/-- `SCBEEnvelope.toObject()`: passes fields through unchecked (`!` is a
compile-time cast), except `sig` which defaults to `{null, null}`. -/
def toObject (e : SCBEEnvelope) : SCBEEnvelopeData :=
  { ver := e.ver, ctx := e.ctx, intent := e.intent, trajectory := e.trajectory
    aad := e.aad, commit := e.commit, crypto := e.crypto
    sig := some (e.sig.getD ⟨none, none⟩) }

/-- `SCBEEnvelope.fromObject(data)`: copies every field with no validation;
there is no failure path.  (`fromJSON` is `fromObject ∘ JSON.parse`; the only
error `JSON.parse` can raise is a `SyntaxError` for non-JSON text.) -/
def fromObject (d : SCBEEnvelopeData) : Except String SCBEEnvelope :=
  .ok { ver := d.ver, ctx := d.ctx, intent := d.intent
        trajectory := d.trajectory, aad := d.aad, commit := d.commit
        crypto := d.crypto, sig := d.sig }

/-- `interface VerificationResult` (the free-text `error` message is elided;
claims concern only `valid` and `reason`). -/
structure VerificationResult where
  valid : Bool
  reason : Option String
deriving DecidableEq

/-- `class SCBEVerifier`: two `Map`s, modelled as partial functions. -/
structure SCBEVerifier where
  allowedIntents : String → Option (List String)
  trustScores : String → Option ℚ

/-- `new SCBEVerifier()`: both maps empty. -/
def emptyVerifier : SCBEVerifier := ⟨fun _ => none, fun _ => none⟩

/-- `Map.set` on a string-keyed map. -/
def mapSet {α : Type} (m : String → Option α) (k : String) (v : α) :
    String → Option α :=
  fun q => if q = k then some v else m q

/-- The template-literal key `` `${primary}:${modifier}:${harmonic}` ``. -/
def intentKey (primary modifier : String) (harmonic : ℤ) : String :=
  primary ++ ":" ++ modifier ++ ":" ++ toString harmonic

/-- `SCBEVerifier.registerIntent` -/
def registerIntent (v : SCBEVerifier) (primary modifier : String)
    (harmonic : ℤ) (allowedRoutes : List String) : SCBEVerifier :=
  { v with allowedIntents :=
      mapSet v.allowedIntents (intentKey primary modifier harmonic) allowedRoutes }

/-- `SCBEVerifier.setTrust` -/
def setTrust (v : SCBEVerifier) (provider : String) (trust : ℚ) : SCBEVerifier :=
  { v with trustScores := mapSet v.trustScores provider trust }

/-- `SCBEVerifier.updateTrust(provider, validity, alpha = 0.9)`:
`const currentTrust = this.trustScores.get(provider) || 0.5` — JS `||`
falls back to `0.5` both when the map has no entry (`undefined`) and when
the stored number is `0` (falsy). -/
def updateTrust (v : SCBEVerifier) (provider : String) (validity alpha : ℚ) :
    SCBEVerifier :=
  let currentTrust : ℚ :=
    match v.trustScores provider with
    | none => 1/2
    | some t => if t = 0 then 1/2 else t
  { v with trustScores :=
      mapSet v.trustScores provider (alpha * currentTrust + (1 - alpha) * validity) }

/-- `SCBEVerifier.verifySchema`: presence of all six components (including
`crypto`), commit verification, and the three [0,1] bounds checks. -/
def verifySchema (hash : Hash) (e : SCBEEnvelope) : VerificationResult :=
  match e.ctx, e.intent, e.trajectory, e.aad, e.commit, e.crypto with
  | some c, some i, some t, some a, some cm, some _ =>
    if verifyCommitsOf hash c i t a cm = false then ⟨false, some "schema"⟩
    else if c.entropy < 0 ∨ 1 < c.entropy then ⟨false, some "schema"⟩
    else if c.server_load < 0 ∨ 1 < c.server_load then ⟨false, some "schema"⟩
    else if c.stability < 0 ∨ 1 < c.stability then ⟨false, some "schema"⟩
    else ⟨true, none⟩
  | _, _, _, _, _, _ => ⟨false, some "schema"⟩

/-- `SCBEVerifier.verifyIntentPolicy`: dereferences `intent!` and `aad!`. -/
def verifyIntentPolicy (v : SCBEVerifier) (e : SCBEEnvelope) :
    Except String VerificationResult :=
  match e.intent, e.aad with
  | some i, some a =>
    let allowedRoutes := (v.allowedIntents
      (intentKey i.primary i.modifier i.harmonic)).getD []
    if ¬ (a.route_hint ∈ allowedRoutes) then .ok ⟨false, some "intent"⟩
    else .ok ⟨true, none⟩
  | _, _ => .error "TypeError"

/-- `SCBEVerifier.verifyTrajectory` with `now = Math.floor(Date.now()/1000)`
made explicit.  The phase computation is exact rational arithmetic; the model
is faithful for `period_s ≠ 0` (at `period_s = 0` the JS code produces `NaN`
comparisons, outside this embedding). -/
def verifyTrajectory (e : SCBEEnvelope) (now : ℤ) :
    Except String VerificationResult :=
  match e.trajectory with
  | none => .error "TypeError"
  | some t =>
    if (now : ℚ) < t.epoch then .ok ⟨false, some "trajectory"⟩
    else
      match e.intent with
      | none => .error "TypeError"
      | some i =>
        let elapsed : ℚ := (now : ℚ) - t.epoch
        let currentPhaseDeg := jsRem (360 * (elapsed / t.period_s)) 360
        let phaseDiff := |currentPhaseDeg - i.phase_deg|
        if phaseDiff > 15 ∧ 360 - phaseDiff > 15 then
          .ok ⟨false, some "trajectory"⟩
        else .ok ⟨true, none⟩

/-- `SCBEVerifier.verifySwarmTrust(provider, minTrust = 0.3)`:
`this.trustScores.get(provider) || 0.0` — an unseen provider gets `0.0`. -/
def verifySwarmTrust (v : SCBEVerifier) (provider : String) (minTrust : ℚ) :
    VerificationResult :=
  let trust := (v.trustScores provider).getD 0
  if trust < minTrust then ⟨false, some "swarm"⟩ else ⟨true, none⟩

/-- `SCBEVerifier.verifyFull`: gates in order — schema, intent policy,
trajectory, swarm trust (steps 2, 5 and 7 are placeholder comments in the
source); the swarm gate is called with the default `minTrust = 0.3`. -/
def verifyFull (hash : Hash) (v : SCBEVerifier) (e : SCBEEnvelope) (now : ℤ) :
    Except String VerificationResult :=
  let r1 := verifySchema hash e
  if r1.valid = false then .ok r1
  else do
    let r2 ← verifyIntentPolicy v e
    if r2.valid = false then .ok r2
    else do
      let r3 ← verifyTrajectory e now
      if r3.valid = false then .ok r3
      else
        match e.aad with
        | none => .error "TypeError"
        | some a =>
          let r4 := verifySwarmTrust v a.route_hint (3/10)
          if r4.valid = false then .ok r4
          else .ok ⟨true, none⟩

/-- The cryptographic primitives `generateNoiseResponse` calls, abstracted
with their documented I/O contracts: `crypto.createHash('sha256').digest()`
returns 32 bytes; `crypto.pbkdf2Sync(pw, salt, iters, keylen, 'sha256')`
returns exactly `keylen` bytes; `Buffer.toString('base64')` encodes bytes. -/
structure CryptoPrims where
  sha256Bytes : String → List ℕ
  sha256Bytes_length : ∀ s, (sha256Bytes s).length = 32
  pbkdf2Sync : List ℕ → String → ℕ → ℕ → List ℕ
  pbkdf2Sync_length : ∀ pw salt iters keylen,
    (pbkdf2Sync pw salt iters keylen).length = keylen
  toBase64 : List ℕ → String

/-- `Buffer.readUInt32BE(0)`: big-endian word from the first four bytes. -/
def readUInt32BE (l : List ℕ) : ℕ :=
  (l.take 4).foldl (fun acc b => 256 * acc + b) 0

/-- The deterministic noise byte derivation of `generateNoiseResponse`
(lines 429–439): digest of `seedData + ctx_sha256`, length
`4096 + (readUInt32BE % 4096)`, stretched with one PBKDF2 iteration. -/
def noiseBytes (P : CryptoPrims) (ctxSha seedData : String) : List ℕ :=
  let seed := P.sha256Bytes (seedData ++ ctxSha)
  let lengthSeed := readUInt32BE seed
  let noiseLength := 4096 + lengthSeed % 4096
  P.pbkdf2Sync seed "noise" 1 noiseLength

/-- `generateNoiseResponse(envelope, seedData)`: throws (`TypeError`) when
`envelope.commit` is `undefined` (line 431 dereferences `commit!.ctx_sha256`)
or when `envelope.crypto` is `undefined` (line 444 writes
`noiseEnvelope.crypto.cipher_b64`); otherwise returns the envelope object
with the ciphertext replaced by base64 noise. -/
def generateNoiseResponse (P : CryptoPrims) (e : SCBEEnvelope)
    (seedData : String) : Except String SCBEEnvelopeData :=
  match e.commit with
  | none => .error "TypeError"
  | some cm =>
    let noiseB64 := P.toBase64 (noiseBytes P cm.ctx_sha256 seedData)
    let d := toObject e
    match d.crypto with
    | none => .error "TypeError"
    | some cr => .ok { d with crypto := some { cr with cipher_b64 := noiseB64 } }

/-! ### A concrete injective hash for witnesses

SHA-256 collision resistance is expressed in theorems as an injectivity
hypothesis on the `hash` parameter; the witnesses instantiate it with the
following computable injective function `Canon → String`. -/

/-- Injective encoding of a list of naturals (`Nat.pair`-based). -/
def encNatList (l : List ℕ) : ℕ :=
  l.foldr (fun a b => Nat.pair a b + 1) 0

theorem encNatList_injective : Function.Injective encNatList := by
  intro xs
  induction xs with
  | nil =>
    intro ys h
    cases ys with
    | nil => rfl
    | cons b bs => simp [encNatList] at h
  | cons a as ih =>
    intro ys h
    cases ys with
    | nil => simp [encNatList] at h
    | cons b bs =>
      simp only [encNatList, List.foldr_cons, Nat.add_right_cancel_iff] at h
      obtain ⟨h1, h2⟩ := Nat.pair_eq_pair.mp h
      have hbs := ih h2
      rw [h1, hbs]

/-- Injective encoding of a string via its character codes. -/
def encString (s : String) : ℕ := encNatList (s.data.map Char.toNat)

theorem char_toNat_injective : Function.Injective Char.toNat := by
  intro a b h
  exact Char.eq_of_val_eq (UInt32.toNat.inj h)

theorem encString_injective : Function.Injective encString := by
  intro s t h
  have hd : s.data = t.data :=
    List.map_injective_iff.mpr char_toNat_injective (encNatList_injective h)
  cases s; cases t
  simp only at hd
  rw [hd]

/-- Injective encoding of an integer. -/
def encInt (z : ℤ) : ℕ := Nat.pair z.toNat (-z).toNat

theorem encInt_injective : Function.Injective encInt := by
  intro a b h
  obtain ⟨h1, h2⟩ := Nat.pair_eq_pair.mp h
  omega

/-- Injective encoding of a rational via numerator and denominator. -/
def encRat (q : ℚ) : ℕ := Nat.pair (encInt q.num) q.den

theorem encRat_injective : Function.Injective encRat := by
  intro a b h
  obtain ⟨h1, h2⟩ := Nat.pair_eq_pair.mp h
  exact Rat.ext (encInt_injective h1) h2

/-- Injective encoding of a `JVal` (constructor tag paired with payload). -/
def encJVal : JVal → ℕ
  | .s v => Nat.pair 0 (encString v)
  | .q v => Nat.pair 1 (encRat v)
  | .z v => Nat.pair 2 (encInt v)

theorem encJVal_injective : Function.Injective encJVal := by
  intro a b h
  cases a <;> cases b <;>
    simp only [encJVal] at h <;>
    obtain ⟨h1, h2⟩ := Nat.pair_eq_pair.mp h <;>
    first
      | omega
      | (rw [encString_injective h2])
      | (rw [encRat_injective h2])
      | (rw [encInt_injective h2])

/-- Injective encoding of a canonicalized section. -/
def encCanon (c : Canon) : ℕ :=
  encNatList (c.map (fun kv => Nat.pair (encString kv.1) (encJVal kv.2)))

theorem encCanon_injective : Function.Injective encCanon := by
  intro a b h
  refine List.map_injective_iff.mpr ?_ (encNatList_injective h)
  intro kv kv' hkv
  obtain ⟨h1, h2⟩ := Nat.pair_eq_pair.mp hkv
  obtain ⟨k, v⟩ := kv
  obtain ⟨k', v'⟩ := kv'
  simp only at h1 h2
  rw [Prod.mk.injEq]
  exact ⟨encString_injective h1, encJVal_injective h2⟩

/-- A unary injective rendering of a natural as a string. -/
def natToStr (n : ℕ) : String := String.mk (List.replicate n 'a')

theorem natToStr_injective : Function.Injective natToStr := by
  intro n m h
  have hd : List.replicate n 'a' = List.replicate m 'a' := by
    injection h
  have := congrArg List.length hd
  simpa using this

/-- A computable injective `Hash`, standing in for an ideal (collision-free)
`sha256Hex ∘ JSON.stringify` in witnesses. -/
def injHash : Hash := fun c => natToStr (encCanon c)

theorem injHash_injective : Function.Injective injHash := by
  intro a b h
  exact encCanon_injective (natToStr_injective h)

/-! ### Canonicalization is injective on each section type -/

theorem canonicalizeCtx_injective : Function.Injective canonicalizeCtx := by
  intro a b h
  cases a; cases b
  simp_all [canonicalizeCtx]

theorem canonicalizeIntent_injective : Function.Injective canonicalizeIntent := by
  intro a b h
  cases a; cases b
  simp_all [canonicalizeIntent]

theorem canonicalizeTraj_injective : Function.Injective canonicalizeTraj := by
  intro a b h
  cases a; cases b
  simp_all [canonicalizeTraj]

theorem canonicalizeAAD_injective : Function.Injective canonicalizeAAD := by
  intro a b h
  cases a; cases b
  simp_all [canonicalizeAAD]

/-! ### Claim C1 -/

/-- C1 (counterexample): the claim asserts that the Swarm Trust gate accepts
a route that never received a trust score, because the default were 0.5.  In
the code `verifySwarmTrust` defaults an unseen provider to `0.0`
(`this.trustScores.get(provider) || 0.0`), so a fresh verifier rejects the
unseen route "openai" at the default 0.3 threshold with reason `swarm`. -/
theorem swarmTrust_unseen_rejects_cex :
    emptyVerifier.trustScores "openai" = none ∧
    verifySwarmTrust emptyVerifier "openai" (3/10) = ⟨false, some "swarm"⟩ := by
  constructor
  · rfl
  · norm_num [verifySwarmTrust, emptyVerifier]

/-- C1 (amended): for every route identifier that has no stored trust score,
`verifySwarmTrust` with the default 0.3 threshold rejects with reason
`swarm`, because its fallback trust for an unseen route is 0.0 (the 0.5
default of the spec exists only inside `updateTrust`). -/
theorem swarmTrust_unseen_default_zero (v : SCBEVerifier) (route : String)
    (h : v.trustScores route = none) :
    verifySwarmTrust v route (3/10) = ⟨false, some "swarm"⟩ := by
  norm_num [verifySwarmTrust, h]

/-- C1 (witness): the amended theorem applied to the empty verifier. -/
theorem swarmTrust_unseen_default_zero_witness :
    emptyVerifier.trustScores "r" = none ∧
    verifySwarmTrust emptyVerifier "r" (3/10) = ⟨false, some "swarm"⟩ :=
  ⟨rfl, swarmTrust_unseen_default_zero emptyVerifier "r" rfl⟩

/-! ### Claim C4 -/

/-- C4 (counterexample): the claim asserts
`updateTrust(route, v, alpha)` always stores `alpha*t + (1-alpha)*v` with
`t` the previously stored trust.  With stored trust exactly `0`, JS `||`
treats it as falsy and substitutes `0.5`: after `setTrust("r", 0)`,
`updateTrust("r", 1, 0.9)` stores `0.9*0.5 + 0.1*1 = 11/20`, not
`0.9*0 + 0.1*1 = 1/10`. -/
theorem updateTrust_zero_stored_cex :
    (setTrust emptyVerifier "r" 0).trustScores "r" = some 0 ∧
    (updateTrust (setTrust emptyVerifier "r" 0) "r" 1 (9/10)).trustScores "r"
      = some (11/20) ∧
    (11/20 : ℚ) ≠ (9/10) * 0 + (1 - 9/10) * 1 := by
  refine ⟨rfl, ?_, by norm_num⟩
  norm_num [updateTrust, setTrust, mapSet, emptyVerifier]

/-- C4 (amended): `updateTrust(route, v, alpha)` stores
`alpha*t + (1-alpha)*v` where `t` is the previously stored trust, except
that both an absent entry and a stored trust of exactly `0` are replaced by
the prior `0.5` (JS `||` fallback on a falsy value). -/
theorem updateTrust_ema (v : SCBEVerifier) (p : String) (validity alpha : ℚ) :
    (v.trustScores p = none →
      (updateTrust v p validity alpha).trustScores p
        = some (alpha * (1/2) + (1 - alpha) * validity)) ∧
    (∀ t : ℚ, v.trustScores p = some t → t ≠ 0 →
      (updateTrust v p validity alpha).trustScores p
        = some (alpha * t + (1 - alpha) * validity)) ∧
    (v.trustScores p = some 0 →
      (updateTrust v p validity alpha).trustScores p
        = some (alpha * (1/2) + (1 - alpha) * validity)) := by
  refine ⟨fun h => ?_, fun t h ht => ?_, fun h => ?_⟩ <;>
    simp [updateTrust, mapSet, h, *]

/-- C4 (witness): the amended theorem's unseen-route case at a concrete
input. -/
theorem updateTrust_ema_witness :
    emptyVerifier.trustScores "r" = none ∧
    (updateTrust emptyVerifier "r" 1 (9/10)).trustScores "r"
      = some ((9/10) * (1/2) + (1 - 9/10) * 1) :=
  ⟨rfl, (updateTrust_ema emptyVerifier "r" 1 (9/10)).1 rfl⟩

/-! ### Claim C5 -/

/-- One application of `updateTrust(route, 0.0, alpha = 0.9)` to route "r". -/
def decayStep (s : SCBEVerifier) : SCBEVerifier := updateTrust s "r" 0 (9/10)

/-- The verifier after seeding trust 0.85 on route "r" and applying `n`
decay updates. -/
def decayState (n : ℕ) : SCBEVerifier :=
  decayStep^[n] (setTrust emptyVerifier "r" (17/20))

theorem decayState_trust (n : ℕ) :
    (decayState n).trustScores "r" = some ((17/20) * (9/10)^n) := by
  induction n with
  | zero => norm_num [decayState, setTrust, mapSet, emptyVerifier]
  | succ k ih =>
    have hpos : (17/20 : ℚ) * (9/10)^k ≠ 0 := by positivity
    rw [decayState, Function.iterate_succ_apply'] at *
    simp only [decayStep, updateTrust, ih, hpos, if_false, mapSet, if_pos]
    norm_num
    ring

/-- C5: starting from stored trust 0.85 on route "r", twenty applications of
`updateTrust("r", 0.0, 0.9)` leave the stored trust `0.85 * 0.9^20 < 0.3`,
after which `verifySwarmTrust` rejects "r" at the default threshold; and for
any stored trust `t` with `0 < t ≤ 1`, `updateTrust(route, 1.0, 0.9)` stores
a new trust `t'` with `t ≤ t' ≤ 1`. -/
theorem trust_ema_convergence (t : ℚ) (ht0 : 0 < t) (ht1 : t ≤ 1) :
    ((decayState 20).trustScores "r" = some ((17/20) * (9/10)^20) ∧
     (17/20 : ℚ) * (9/10)^20 < 3/10 ∧
     verifySwarmTrust (decayState 20) "r" (3/10) = ⟨false, some "swarm"⟩) ∧
    (∀ v : SCBEVerifier, ∀ route : String, v.trustScores route = some t →
      ∃ t' : ℚ, (updateTrust v route 1 (9/10)).trustScores route = some t' ∧
        t ≤ t' ∧ t' ≤ 1) := by
  constructor
  · have hlt : (17/20 : ℚ) * (9/10)^20 < 3/10 := by norm_num
    refine ⟨decayState_trust 20, hlt, ?_⟩
    simp [verifySwarmTrust, decayState_trust 20, hlt]
  · intro v route hv
    refine ⟨(9/10) * t + (1 - 9/10) * 1, ?_, by linarith, by linarith⟩
    simp [updateTrust, mapSet, hv, ne_of_gt ht0]

/-- C5 (witness): the theorem applied at `t = 1/2`, with its growth part
instantiated on a concrete verifier storing trust 1/2 for route "x". -/
theorem trust_ema_convergence_witness :
    (0 : ℚ) < 1/2 ∧ (1/2 : ℚ) ≤ 1 ∧
    (setTrust emptyVerifier "x" (1/2)).trustScores "x" = some (1/2) ∧
    (decayState 20).trustScores "r" = some ((17/20) * (9/10)^20) ∧
    verifySwarmTrust (decayState 20) "r" (3/10) = ⟨false, some "swarm"⟩ ∧
    (∃ t' : ℚ,
      (updateTrust (setTrust emptyVerifier "x" (1/2)) "x" 1 (9/10)).trustScores "x"
        = some t' ∧ (1/2 : ℚ) ≤ t' ∧ t' ≤ 1) :=
  have h := trust_ema_convergence (1/2) (by norm_num) (by norm_num)
  ⟨by norm_num, by norm_num, by simp [setTrust, mapSet, emptyVerifier],
    h.1.1, h.1.2.2,
    h.2 (setTrust emptyVerifier "x" (1/2)) "x"
      (by simp [setTrust, mapSet, emptyVerifier])⟩

/-! ### Claim C2 -/

/-- The field-by-field comparison fails as soon as one recomputed section
hash differs from the stored one (no partial trust). -/
theorem verifyCommitsOf_false_of_mismatch (hash : Hash) (c : Context)
    (i : Intent) (t : Trajectory) (a : AAD) (cm : Commit)
    (h : hash (canonicalizeCtx c) ≠ cm.ctx_sha256 ∨
         hash (canonicalizeIntent i) ≠ cm.intent_sha256 ∨
         hash (canonicalizeTraj t) ≠ cm.traj_sha256 ∨
         hash (canonicalizeAAD a) ≠ cm.aad_sha256) :
    verifyCommitsOf hash c i t a cm = false := by
  simp only [verifyCommitsOf, computeCommitsOf, decide_eq_false_iff_not]
  rintro ⟨h1, h2, h3, h4⟩
  rcases h with h | h | h | h
  · exact h h1
  · exact h h2
  · exact h h3
  · exact h h4

/-- C2: let an envelope's four sections be present and its `commit` be
exactly `computeCommits` of those sections, and let the hash be
collision-free (the SHA-256 assumption).  Then replacing any one section by
a different value (in particular, changing any single field of it) makes
`verifyCommits` return `false`; and `verifyCommits` returns `false` for any
stored commit in which at least one field differs from the recomputed
section hash. -/
theorem commit_tamper_detection (hash : Hash) (hinj : Function.Injective hash)
    (e : SCBEEnvelope) (c : Context) (i : Intent) (t : Trajectory) (a : AAD)
    (hc : e.ctx = some c) (hi : e.intent = some i) (ht : e.trajectory = some t)
    (ha : e.aad = some a)
    (hcm : e.commit = some (computeCommitsOf hash c i t a)) :
    (∀ c' : Context, c' ≠ c →
       verifyCommits hash { e with ctx := some c' } = .ok false) ∧
    (∀ i' : Intent, i' ≠ i →
       verifyCommits hash { e with intent := some i' } = .ok false) ∧
    (∀ t' : Trajectory, t' ≠ t →
       verifyCommits hash { e with trajectory := some t' } = .ok false) ∧
    (∀ a' : AAD, a' ≠ a →
       verifyCommits hash { e with aad := some a' } = .ok false) ∧
    (∀ cm' : Commit,
       (hash (canonicalizeCtx c) ≠ cm'.ctx_sha256 ∨
        hash (canonicalizeIntent i) ≠ cm'.intent_sha256 ∨
        hash (canonicalizeTraj t) ≠ cm'.traj_sha256 ∨
        hash (canonicalizeAAD a) ≠ cm'.aad_sha256) →
       verifyCommits hash { e with commit := some cm' } = .ok false) := by
  refine ⟨fun c' hne => ?_, fun i' hne => ?_, fun t' hne => ?_,
    fun a' hne => ?_, fun cm' hmm => ?_⟩ <;>
    simp only [verifyCommits, hc, hi, ht, ha, hcm, Except.ok.injEq]
  · exact verifyCommitsOf_false_of_mismatch hash c' i t a _
      (Or.inl fun hh => hne (canonicalizeCtx_injective (hinj hh)))
  · exact verifyCommitsOf_false_of_mismatch hash c i' t a _
      (Or.inr (Or.inl fun hh => hne (canonicalizeIntent_injective (hinj hh))))
  · exact verifyCommitsOf_false_of_mismatch hash c i t' a _
      (Or.inr (Or.inr (Or.inl fun hh =>
        hne (canonicalizeTraj_injective (hinj hh)))))
  · exact verifyCommitsOf_false_of_mismatch hash c i t a' _
      (Or.inr (Or.inr (Or.inr fun hh =>
        hne (canonicalizeAAD_injective (hinj hh)))))
  · exact verifyCommitsOf_false_of_mismatch hash c i t a cm' hmm

/-- Concrete envelope sections for witnesses. -/
def ctxW : Context := ⟨100, "dev", 3, 1/2, 1/2, 1/2⟩

def intentW : Intent := ⟨"sil", "nav", 3, 45⟩

def trajW : Trajectory := ⟨0, 3600, "slot", 1⟩

def aadW : AAD := ⟨"openai", "run1", 7⟩

/-- A stamped envelope whose commit was produced with `injHash`. -/
def envW : SCBEEnvelope :=
  ⟨"scbe-2.0", some ctxW, some intentW, some trajW, some aadW,
   some (computeCommitsOf injHash ctxW intentW trajW aadW), none, none⟩

/-- C2 (witness): changing the single field `ts` of the stamped envelope's
context makes `verifyCommits` return `false`. -/
theorem commit_tamper_detection_witness :
    ({ ctxW with ts := 101 } : Context) ≠ ctxW ∧
    verifyCommits injHash { envW with ctx := some { ctxW with ts := 101 } }
      = .ok false :=
  ⟨by decide,
    (commit_tamper_detection injHash injHash_injective envW ctxW intentW
      trajW aadW rfl rfl rfl rfl rfl).1 _ (by decide)⟩

deriving instance DecidableEq for Except

/-! ### Claim C3 -/

/-- Envelope with `period_s = 3600`, `epoch = now - 1800` (at `now = 1800`)
and the given `phase_deg`, for the boundary instances of C3. -/
def trajEnvC3 (p : ℚ) : SCBEEnvelope :=
  ⟨"scbe-2.0", none, some ⟨"proc", "ana", 3, p⟩, some ⟨0, 3600, "slot", 1⟩,
   none, none, none, none⟩

/-- C3: with trajectory and intent present and a positive period (the domain
on which the rational model is faithful — at `period_s ≤ 0` the JS code
computes with `NaN`/`Infinity`), the Trajectory gate rejects with reason
`trajectory` when `now < epoch`; otherwise it accepts iff the circular
distance `min |e−p| (360−|e−p|)` between the expected phase
`(360·(now−epoch)/period_s) mod 360` and `intent.phase_deg` is at most 15,
boundary inclusive.  In particular with `period_s = 3600`,
`epoch = now − 1800`: `phase_deg = 180` and `195` are accepted and `196` is
rejected with reason `trajectory`. -/
theorem trajectory_gate_spec (e : SCBEEnvelope) (t : Trajectory) (i : Intent)
    (ht : e.trajectory = some t) (hi : e.intent = some i)
    (hper : 0 < t.period_s) (now : ℤ) :
    ((now : ℚ) < t.epoch →
       verifyTrajectory e now = .ok ⟨false, some "trajectory"⟩) ∧
    (t.epoch ≤ (now : ℚ) →
       verifyTrajectory e now = .ok
         (if min |jsRem (360 * (((now : ℚ) - t.epoch) / t.period_s)) 360
                   - i.phase_deg|
               (360 - |jsRem (360 * (((now : ℚ) - t.epoch) / t.period_s)) 360
                   - i.phase_deg|) ≤ 15
          then ⟨true, none⟩ else ⟨false, some "trajectory"⟩)) ∧
    verifyTrajectory (trajEnvC3 180) 1800 = .ok ⟨true, none⟩ ∧
    verifyTrajectory (trajEnvC3 195) 1800 = .ok ⟨true, none⟩ ∧
    verifyTrajectory (trajEnvC3 196) 1800 = .ok ⟨false, some "trajectory"⟩ := by
  refine ⟨fun hlt => ?_, fun hge => ?_,
    by norm_num [verifyTrajectory, trajEnvC3, jsRem, ratTrunc],
    by norm_num [verifyTrajectory, trajEnvC3, jsRem, ratTrunc],
    by norm_num [verifyTrajectory, trajEnvC3, jsRem, ratTrunc]⟩
  · simp only [verifyTrajectory, ht, hi]
    rw [if_pos hlt]
  · simp only [verifyTrajectory, ht, hi]
    rw [if_neg (not_lt.mpr hge)]
    set d := |jsRem (360 * (((now : ℚ) - t.epoch) / t.period_s)) 360
      - i.phase_deg| with hd_def
    by_cases hd : d > 15 ∧ 360 - d > 15
    · rw [if_pos hd, if_neg]
      intro hmin
      rcases min_le_iff.mp hmin with h | h
      · linarith [hd.1]
      · linarith [hd.2]
    · rw [if_neg hd, if_pos]
      push_neg at hd
      rcases le_or_lt d 15 with h | h
      · exact min_le_iff.mpr (Or.inl h)
      · exact min_le_iff.mpr (Or.inr (hd h))

/-- C3 (witness): the theorem applied to the concrete boundary envelope. -/
theorem trajectory_gate_spec_witness :
    verifyTrajectory (trajEnvC3 180) 1800 = .ok ⟨true, none⟩ :=
  (trajectory_gate_spec (trajEnvC3 180) ⟨0, 3600, "slot", 1⟩
    ⟨"proc", "ana", 3, 180⟩ rfl rfl (by norm_num) 1800).2.2.1

/-! ### Claim C6 -/

/-- A decoded envelope object with every section absent. -/
def emptyData : SCBEEnvelopeData :=
  ⟨"scbe-2.0", none, none, none, none, none, none, none⟩

/-- C6 (counterexample): the claim asserts `parse`/`fromObject` fails with a
`MalformedEnvelope` error when a mandatory section is absent.  The code has
no such check (no `MalformedEnvelope` exists anywhere in the source):
`fromObject` on data with every section missing returns an envelope. -/
theorem fromObject_no_validation_cex :
    emptyData.ctx = none ∧
    fromObject emptyData
      = .ok ⟨"scbe-2.0", none, none, none, none, none, none, none⟩ :=
  ⟨rfl, rfl⟩

/-- C6 (amended): `fromObject` (hence `fromJSON` on syntactically valid
JSON) never fails for an absent section — it returns an envelope copying the
fields verbatim; an envelope missing a mandatory section is instead rejected
by `verifySchema` with reason `schema`. -/
theorem parse_defers_missing_sections (d : SCBEEnvelopeData) (hash : Hash)
    (hmiss : d.ctx = none ∨ d.intent = none ∨ d.trajectory = none ∨
      d.aad = none ∨ d.commit = none) :
    (∃ env : SCBEEnvelope, fromObject d = .ok env) ∧
    (∀ env : SCBEEnvelope, fromObject d = .ok env →
       verifySchema hash env = ⟨false, some "schema"⟩) := by
  obtain ⟨ver, ctx, intent, traj, aad, cm, cr, sg⟩ := d
  refine ⟨⟨_, rfl⟩, fun env henv => ?_⟩
  simp only [fromObject, Except.ok.injEq] at henv
  subst henv
  cases ctx <;> cases intent <;> cases traj <;> cases aad <;> cases cm <;>
    simp_all [verifySchema]

/-- C6 (witness): the amended theorem applied to the all-absent data and the
concrete envelope `fromObject` returns for it. -/
theorem parse_defers_missing_sections_witness :
    emptyData.ctx = none ∧
    verifySchema injHash ⟨"scbe-2.0", none, none, none, none, none, none, none⟩
      = ⟨false, some "schema"⟩ :=
  ⟨rfl, (parse_defers_missing_sections emptyData injHash (Or.inl rfl)).2
    ⟨"scbe-2.0", none, none, none, none, none, none, none⟩ rfl⟩

/-! ### Claim C7 -/

/-- C7: the claim (and the `Intent` interface comment `// 0..359`) requires
`createIntent` to wrap the phase into `[0, 359]`.  JS `%` keeps the sign of
the dividend, so `createIntent(_, _, _, -30)` stores `phase_deg = -30`,
which is not in `[0, 359]` (code bug: the code contradicts its own
documented field range; wrapped value would be 330). -/
theorem createIntent_negative_phase_bug :
    (createIntent "sil" "nav" 3 (-30)).phase_deg = -30 ∧
    ¬ (0 ≤ (createIntent "sil" "nav" 3 (-30)).phase_deg) := by
  have h : jsRem (-30) 360 = -30 := by norm_num [jsRem, ratTrunc]
  have hp : (createIntent "sil" "nav" 3 (-30)).phase_deg = -30 := by
    simp only [createIntent]
    exact h
  refine ⟨hp, ?_⟩
  rw [hp]
  norm_num

/-! ### Claims C8 and C10 -/

/-- C8: `generateNoiseResponse` is a pure function of `(envelope, seed)` —
two calls on identical arguments are byte-identical (the source reads no
randomness or clock on this path) — the derived noise byte sequence has
length in `[4096, 8191]` whenever a commit is present, and the returned
object carries exactly that noise (base64) as `crypto.cipher_b64`. -/
theorem noise_determinism_and_shape (P : CryptoPrims) (e e' : SCBEEnvelope)
    (s s' : String) (cm : Commit) (hcm : e.commit = some cm)
    (he : e = e') (hs : s = s') :
    generateNoiseResponse P e s = generateNoiseResponse P e' s' ∧
    4096 ≤ (noiseBytes P cm.ctx_sha256 s).length ∧
    (noiseBytes P cm.ctx_sha256 s).length ≤ 8191 ∧
    (∀ cr : CryptoParams, e.crypto = some cr →
      generateNoiseResponse P e s = Except.ok
        { toObject e with crypto := some { cr with cipher_b64 := P.toBase64 (noiseBytes P cm.ctx_sha256 s) } }) := by
  subst he
  subst hs
  refine ⟨rfl, ?_, ?_, fun cr hcr => ?_⟩
  · simp only [noiseBytes]
    rw [P.pbkdf2Sync_length]
    omega
  · simp only [noiseBytes]
    rw [P.pbkdf2Sync_length]
    have hm : readUInt32BE (P.sha256Bytes (s ++ cm.ctx_sha256)) % 4096 < 4096 :=
      Nat.mod_lt _ (by norm_num)
    omega
  · simp [generateNoiseResponse, hcm, toObject, hcr]

/-- A trivial instantiation of the cryptographic primitives, meeting their
length contracts, for witnesses. -/
def trivPrims : CryptoPrims :=
  { sha256Bytes := fun _ => List.replicate 32 0
    sha256Bytes_length := fun _ => by simp
    pbkdf2Sync := fun _ _ _ keylen => List.replicate keylen 0
    pbkdf2Sync_length := fun _ _ _ keylen => by simp
    toBase64 := fun _ => "" }

/-- C8 (witness): the theorem applied to the stamped envelope `envW`. -/
theorem noise_determinism_and_shape_witness :
    envW.commit = some (computeCommitsOf injHash ctxW intentW trajW aadW) ∧
    4096 ≤ (noiseBytes trivPrims
      (computeCommitsOf injHash ctxW intentW trajW aadW).ctx_sha256
      "seed-A").length :=
  ⟨rfl, (noise_determinism_and_shape trivPrims envW envW "seed-A" "seed-A"
    (computeCommitsOf injHash ctxW intentW trajW aadW) rfl rfl rfl).2.1⟩

/-- An envelope with no commit section. -/
def envNoCommit : SCBEEnvelope :=
  ⟨"scbe-2.0", none, none, none, none, none, none, none⟩

/-- C10: when the envelope's commit section is absent,
`generateNoiseResponse` throws (line 431 dereferences
`envelope.commit!.ctx_sha256` on `undefined`) instead of returning a noise
response, for every seed. -/
theorem noise_requires_commit (P : CryptoPrims) (e : SCBEEnvelope)
    (s : String) (h : e.commit = none) :
    ∀ d : SCBEEnvelopeData, generateNoiseResponse P e s ≠ .ok d := by
  intro d hk
  simp [generateNoiseResponse, h] at hk

/-- C10 (witness): the theorem applied to a concrete commitless envelope. -/
theorem noise_requires_commit_witness :
    envNoCommit.commit = none ∧
    generateNoiseResponse trivPrims envNoCommit "seed-A"
      ≠ .ok (toObject envNoCommit) :=
  ⟨rfl, noise_requires_commit trivPrims envNoCommit "seed-A" rfl
    (toObject envNoCommit)⟩

/-! ### Claim C9 -/

/-- A constant hash, adequate for concrete pipeline runs in which the commit
was stamped with the same hash (only agreement matters there). -/
def constHash : Hash := fun _ => "h"

/-- Verifier allowing intent ("sil","nav",3) on route "openai" with trust
0.85. -/
def vC9 : SCBEVerifier :=
  setTrust (registerIntent emptyVerifier "sil" "nav" 3 ["openai"]) "openai" (17/20)

def ctx9 : Context := ⟨1800, "dev", 3, 1/2, 1/2, 1/2⟩

def intent9 : Intent := ⟨"sil", "nav", 3, 180⟩

def traj9 : Trajectory := ⟨0, 3600, "slot", 1⟩

def aad9 : AAD := ⟨"openai", "run1", 7⟩

/-- A stamped envelope (commit computed over its sections with `constHash`)
whose crypto section is the given option. -/
def env9 (cr : Option CryptoParams) : SCBEEnvelope :=
  ⟨"scbe-2.0", some ctx9, some intent9, some traj9, some aad9,
   some (computeCommitsOf constHash ctx9 intent9 traj9 aad9), cr, none⟩

/-- C9 (counterexample): the claim asserts the mandatory gates do not require
the Crypto section, so an envelope without it that satisfies the
intent-policy, trajectory and trust conditions would be accepted by
`verifyFull`.  In the code `verifySchema` checks `!envelope.crypto` and
rejects: the concrete envelope below passes the intent-policy, trajectory
and swarm-trust gates individually, yet `verifyFull` rejects it with reason
`schema` because `crypto` is absent. -/
theorem cryptoSection_required_cex :
    (env9 none).crypto = none ∧
    verifyIntentPolicy vC9 (env9 none) = .ok ⟨true, none⟩ ∧
    verifyTrajectory (env9 none) 1800 = .ok ⟨true, none⟩ ∧
    verifySwarmTrust vC9 "openai" (3/10) = ⟨true, none⟩ ∧
    verifyFull constHash vC9 (env9 none) 1800 = .ok ⟨false, some "schema"⟩ := by
  refine ⟨rfl, by rfl, ?_, ?_, by rfl⟩
  · norm_num [verifyTrajectory, env9, traj9, intent9, jsRem, ratTrunc]
  · norm_num [verifySwarmTrust, vC9, setTrust, registerIntent, mapSet,
      emptyVerifier]

/-- C9 (amended): the schema gate requires the Crypto section to be
*present*: an envelope with `crypto` absent is rejected by `verifySchema`
and hence by `verifyFull` with reason `schema`, regardless of the other
gates.  However no mandatory gate inspects the crypto *contents*: replacing
a present crypto section by any other value leaves `verifyFull`'s result
unchanged. -/
theorem cryptoSection_presence_only (hash : Hash) (v : SCBEVerifier)
    (e : SCBEEnvelope) (now : ℤ) (h : e.crypto = none)
    (cr cr' : CryptoParams) :
    verifySchema hash e = ⟨false, some "schema"⟩ ∧
    verifyFull hash v e now = .ok ⟨false, some "schema"⟩ ∧
    verifyFull hash v { e with crypto := some cr } now
      = verifyFull hash v { e with crypto := some cr' } now := by
  obtain ⟨ver, ctx, intent, traj, aad, cm, cass, sg⟩ := e
  simp only at h
  subst h
  have hs : verifySchema hash ⟨ver, ctx, intent, traj, aad, cm, none, sg⟩
      = ⟨false, some "schema"⟩ := by
    cases ctx <;> cases intent <;> cases traj <;> cases aad <;> cases cm <;>
      simp [verifySchema]
  refine ⟨hs, ?_, ?_⟩
  · simp [verifyFull, hs]
  · cases ctx <;> cases intent <;> cases traj <;> cases aad <;> cases cm <;> rfl

/-- Sample crypto parameter blocks differing in their ciphertext. -/
def crSample : CryptoParams := ⟨"ML-KEM-768", "ML-DSA-65", ⟨4, 3/2, 1, 6500⟩, "salt", "cipher"⟩

def crSample2 : CryptoParams := { crSample with cipher_b64 := "other" }

/-- C9 (witness): the amended theorem applied to the concrete envelope. -/
theorem cryptoSection_presence_only_witness :
    (env9 none).crypto = none ∧
    verifySchema constHash (env9 none) = ⟨false, some "schema"⟩ ∧
    verifyFull constHash vC9 { env9 none with crypto := some crSample } 1800
      = verifyFull constHash vC9 { env9 none with crypto := some crSample2 } 1800 :=
  have h := cryptoSection_presence_only constHash vC9 (env9 none) 1800 rfl
    crSample crSample2
  ⟨rfl, h.1, h.2.2⟩

end SCBE
